import Mathlib

/-!
The Foo controller of wrangler-sample.

A shallow embedding of `controller.go`: the two change handlers
`OnFooChanged` and `OnDeploymentChanged`, the status writer
`updateFooStatus` and the constructor `newDeployment`, together with the
apimachinery helpers they call (`NewControllerRef`, `GetControllerOf`,
`IsControlledBy`, `IsNotFound`).

Objects behind Go pointers are `Option` values (`none` is the nil pointer).
A client call returns the Go pair `(object, error)`.  Every call a handler
makes on one of its collaborators is recorded, in order, in the list of
calls of the pass, with the answer it received.  A nil dereference ends the
pass with `Outcome.panicked`.
-/

namespace WranglerSample

/-! ## Data model -/

/-- A Go `error` as the handlers see it: the status reason that
`errors.ReasonForError` extracts (empty for an error that carries none)
and a message. -/
structure Err where
  Reason : String
  Message : String
  deriving DecidableEq, Repr

/-- The result of `errors.IsNotFound`: the error is non-nil and its reason is
`StatusReasonNotFound`. -/
def IsNotFound (err : Option Err) : Bool :=
  match err with
  | none => false
  | some e => e.Reason == "NotFound"

/-- The fields of `metav1.OwnerReference`. -/
structure OwnerReference where
  APIVersion : String
  Kind : String
  Name : String
  UID : String
  Controller : Option Bool
  BlockOwnerDeletion : Option Bool
  deriving DecidableEq, Repr

/-- The fields of `metav1.ObjectMeta` that the controller reads or sets. -/
structure ObjectMeta where
  Name : String
  Namespace : String
  SelfLink : String
  UID : String
  ResourceVersion : String
  Labels : List (String × String)
  OwnerReferences : List OwnerReference
  deriving DecidableEq, Repr

/-- Modelled from the spec: the type `FooSpec` of the package `v1alpha1`, whose
declaration is outside `controller.go`: a deployment name and an optional
replica count (a `*int32`). -/
structure FooSpec where
  DeploymentName : String
  Replicas : Option Int
  deriving DecidableEq, Repr

/-- Modelled from the spec: the type `FooStatus` of the package `v1alpha1`: the
observed available-replica count. -/
structure FooStatus where
  AvailableReplicas : Int
  deriving DecidableEq, Repr

/-- Modelled from the spec: the custom resource `samplev1alpha1.Foo`: object
metadata, spec and status. -/
structure Foo where
  ObjectMeta : ObjectMeta
  Spec : FooSpec
  Status : FooStatus
  deriving DecidableEq, Repr

/-- Modelled from the spec: the generated method `DeepCopy` of a Foo, which is
outside `controller.go`: a clone of the snapshot, equal to it field by
field. -/
def Foo.DeepCopy (foo : Foo) : Foo := foo

/-- The fields of `corev1.Container` set by `newDeployment`. -/
structure Container where
  Name : String
  Image : String
  deriving DecidableEq, Repr

/-- The pod spec: its containers. -/
structure PodSpec where
  Containers : List Container
  deriving DecidableEq, Repr

/-- The pod template of a Deployment. -/
structure PodTemplateSpec where
  ObjectMeta : ObjectMeta
  Spec : PodSpec
  deriving DecidableEq, Repr

/-- The label selector of a Deployment. -/
structure LabelSelector where
  MatchLabels : List (String × String)
  deriving DecidableEq, Repr

/-- The spec of a Deployment: `Replicas` is a `*int32`, `Selector` a pointer. -/
structure DeploymentSpec where
  Replicas : Option Int
  Selector : Option LabelSelector
  Template : PodTemplateSpec
  deriving DecidableEq, Repr

/-- The status of a Deployment. -/
structure DeploymentStatus where
  AvailableReplicas : Int
  deriving DecidableEq, Repr

/-- The resource `appsv1.Deployment`. -/
structure Deployment where
  ObjectMeta : ObjectMeta
  Spec : DeploymentSpec
  Status : DeploymentStatus
  deriving DecidableEq, Repr

/-- The zero value of `metav1.ObjectMeta`. -/
def ObjectMeta.zero : ObjectMeta :=
  { Name := "", Namespace := "", SelfLink := "", UID := "", ResourceVersion := "",
    Labels := [], OwnerReferences := [] }

/-- A `schema.GroupVersion`. -/
structure GroupVersion where
  Group : String
  Version : String
  deriving DecidableEq, Repr

/-- The method `String()` of `schema.GroupVersion`: `group/version`, or the
version alone for the empty group. -/
def GroupVersion.string (gv : GroupVersion) : String :=
  if gv.Group.length > 0 then gv.Group ++ "/" ++ gv.Version else gv.Version

/-- A `schema.GroupVersionKind`. -/
structure GroupVersionKind where
  Group : String
  Version : String
  Kind : String
  deriving DecidableEq, Repr

/-- The method `GroupVersion()` of `schema.GroupVersionKind`. -/
def GroupVersionKind.GroupVersion (gvk : GroupVersionKind) : GroupVersion :=
  { Group := gvk.Group, Version := gvk.Version }

/-! ## apimachinery helpers -/

/-- The function `metav1.NewControllerRef`: an owner reference to `owner` with
both `BlockOwnerDeletion` and `Controller` pointing to `true`. -/
def NewControllerRef (owner : ObjectMeta) (gvk : GroupVersionKind) : OwnerReference :=
  let blockOwnerDeletion := true
  let isController := true
  { APIVersion := gvk.GroupVersion.string
    Kind := gvk.Kind
    Name := owner.Name
    UID := owner.UID
    BlockOwnerDeletion := some blockOwnerDeletion
    Controller := some isController }

/-- The scan of `metav1.GetControllerOf` over the owner references: the first
one whose `Controller` is non-nil and true. -/
def GetControllerOfRefs : List OwnerReference → Option OwnerReference
  | [] => none
  | ref :: refs =>
    if ref.Controller ≠ none ∧ ref.Controller = some true then some ref
    else GetControllerOfRefs refs

/-- The function `metav1.GetControllerOf`. -/
def GetControllerOf (controllee : ObjectMeta) : Option OwnerReference :=
  GetControllerOfRefs controllee.OwnerReferences

/-- The function `metav1.IsControlledBy`: the controller reference of `obj`
exists and carries the UID of `owner`. -/
def IsControlledBy (obj owner : ObjectMeta) : Bool :=
  match GetControllerOf obj with
  | none => false
  | some ref => ref.UID == owner.UID

/-! ## The handler and its collaborators -/

/-- The component name under which the controller records events. -/
def controllerAgentName : String := "sample-controller"

/-- The event reason used when a Foo fails to sync because a Deployment of the
same name already exists. -/
def ErrResourceExists : String := "ErrResourceExists"

/-- The value `corev1.EventTypeWarning`. -/
def EventTypeWarning : String := "Warning"

/-- The controller implementation for Foo resources: the answers of the
collaborators held in the fields `deployments`, `deploymentsCache`, `foos`
and `foosCache` of the Go struct, each a Go pair `(object, error)`; and the
two values the source takes from outside `controller.go`: the verb `%q` of
`fmt` and the package variable `SchemeGroupVersion`. -/
structure Handler where
  deploymentsCacheGet : String → String → Option Deployment × Option Err
  deploymentsCreate : Deployment → Option Deployment × Option Err
  deploymentsUpdate : Deployment → Option Deployment × Option Err
  foosUpdate : Foo → Option Foo × Option Err
  foosCacheGet : String → String → Option Foo × Option Err
  quote : String → String
  SchemeGroupVersion : GroupVersion

/-- One call made by a handler on a collaborator, with its arguments and, for
the client calls, the pair it returned. -/
inductive Call where
  | deploymentsCacheGet (ns name : String) (res : Option Deployment × Option Err)
  | deploymentsCreate (d : Deployment) (res : Option Deployment × Option Err)
  | deploymentsUpdate (d : Deployment) (res : Option Deployment × Option Err)
  | foosUpdate (foo : Foo) (res : Option Foo × Option Err)
  | foosCacheGet (ns name : String) (res : Option Foo × Option Err)
  | foosEnqueue (ns name : String)
  | recorderEvent (object : Foo) (eventtype reason message : String)
  | HandleError (err : String)
  | Infof (msg : String)
  deriving DecidableEq, Repr

/-- How a pass of a function ends: it returns a value, or a nil pointer is
dereferenced. -/
inductive Outcome (α : Type) where
  | returned (value : α)
  | panicked
  deriving DecidableEq, Repr

/-- One pass of a handler: the calls it made, in order, how it ended, and the
contents, when it ends, of the object it was handed (`none` for nil). -/
structure Pass (α : Type) where
  calls : List Call
  outcome : Outcome (Option α × Option Err)
  input : Option α
  deriving DecidableEq, Repr

/-- The message of the events sent when a Deployment already exists: the format
`MessageResourceExists`, `Resource %q already exists and is not managed by
Foo`, applied to the Deployment name, with the quoting of `%q` taken from
the handler. -/
def MessageResourceExists (h : Handler) (name : String) : String :=
  "Resource " ++ h.quote name ++ " already exists and is not managed by Foo"

/-- The function `newDeployment`: the Deployment for a Foo resource, with the
owner reference that lets `OnDeploymentChanged` find the Foo that owns it.
The package variable `SchemeGroupVersion`, declared outside `controller.go`,
is an argument. -/
def newDeployment (SchemeGroupVersion : GroupVersion) (foo : Foo) : Deployment :=
  let labels := [("app", "nginx"), ("controller", foo.ObjectMeta.Name)]
  { ObjectMeta :=
      { ObjectMeta.zero with
        Name := foo.Spec.DeploymentName
        Namespace := foo.ObjectMeta.Namespace
        OwnerReferences :=
          [NewControllerRef foo.ObjectMeta
            { Group := SchemeGroupVersion.Group
              Version := SchemeGroupVersion.Version
              Kind := "Foo" }] }
    Spec :=
      { Replicas := foo.Spec.Replicas
        Selector := some { MatchLabels := labels }
        Template :=
          { ObjectMeta := { ObjectMeta.zero with Labels := labels }
            Spec := { Containers := [{ Name := "nginx", Image := "nginx:latest" }] } } }
    Status := { AvailableReplicas := 0 } }

/-- The method `updateFooStatus`: the calls made, and the error returned
(`panicked` when `deployment` is nil).  The status is set on a deep copy of
`foo`, and the copy is what is sent to `foos.Update`. -/
def updateFooStatus (h : Handler) (foo : Foo) (deployment : Option Deployment) :
    List Call × Outcome (Option Err) :=
  let fooCopy := foo.DeepCopy
  match deployment with
  | none => ([], .panicked)
  | some deployment =>
    let fooCopy :=
      { fooCopy with
        Status := { fooCopy.Status with
                    AvailableReplicas := deployment.Status.AvailableReplicas } }
    let res := h.foosUpdate fooCopy
    ([.foosUpdate fooCopy res], .returned res.2)

/-- Lines 116 to 122 of `OnFooChanged`: the replica comparison and the Update
it may issue.  The value is the calls made and the pair `(deployment, err)`
afterwards, or `none` when `*deployment.Spec.Replicas` dereferences nil. -/
def OnFooChanged.replicas (h : Handler) (foo : Foo) (deployment : Deployment) :
    Option (List Call × (Option Deployment × Option Err)) :=
  match foo.Spec.Replicas with
  | none => some ([], (some deployment, none))
  | some fooReplicas =>
    match deployment.Spec.Replicas with
    | none => none
    | some deploymentReplicas =>
      if fooReplicas ≠ deploymentReplicas then
        let res := h.deploymentsUpdate (newDeployment h.SchemeGroupVersion foo)
        some ([.Infof ("Foo " ++ foo.ObjectMeta.Name ++ " replicas: " ++ toString fooReplicas
                  ++ ", deployment replicas: " ++ toString deploymentReplicas),
               .deploymentsUpdate (newDeployment h.SchemeGroupVersion foo) res], res)
      else some ([], (some deployment, none))

/-- Lines 91 to 96 of `OnFooChanged`: the cache lookup and, on NotFound, the
Create.  The value is the calls made and the pair `(deployment, err)`
afterwards. -/
def OnFooChanged.lookup (h : Handler) (foo : Foo) :
    List Call × (Option Deployment × Option Err) :=
  let deploymentName := foo.Spec.DeploymentName
  let got := h.deploymentsCacheGet foo.ObjectMeta.Namespace deploymentName
  if IsNotFound got.2 then
    let created := h.deploymentsCreate (newDeployment h.SchemeGroupVersion foo)
    ([.deploymentsCacheGet foo.ObjectMeta.Namespace deploymentName got,
      .deploymentsCreate (newDeployment h.SchemeGroupVersion foo) created], created)
  else ([.deploymentsCacheGet foo.ObjectMeta.Namespace deploymentName got], got)

/-- The handler `OnFooChanged`. -/
def OnFooChanged (h : Handler) (key : String) (foo : Option Foo) : Pass Foo :=
  match foo with
  | none => { calls := [], outcome := .returned (none, none), input := none }
  | some foo =>
    if foo.Spec.DeploymentName = "" then
      { calls := [.HandleError (key ++ ": deployment name must be specified")]
        outcome := .returned (none, none), input := some foo }
    else
      match OnFooChanged.lookup h foo with
      | (calls, _, some err) =>
        { calls := calls, outcome := .returned (none, some err), input := some foo }
      | (calls, none, none) => { calls := calls, outcome := .panicked, input := some foo }
      | (calls, some deployment, none) =>
        if !IsControlledBy deployment.ObjectMeta foo.ObjectMeta then
          let msg := MessageResourceExists h deployment.ObjectMeta.Name
          { calls := calls ++ [.recorderEvent foo EventTypeWarning ErrResourceExists msg]
            outcome := .returned (none, none), input := some foo }
        else
          match OnFooChanged.replicas h foo deployment with
          | none => { calls := calls, outcome := .panicked, input := some foo }
          | some (updateCalls, _, some err) =>
            { calls := calls ++ updateCalls, outcome := .returned (none, some err)
              input := some foo }
          | some (updateCalls, deployment, none) =>
            match updateFooStatus h foo deployment with
            | (statusCalls, .panicked) =>
              { calls := calls ++ updateCalls ++ statusCalls, outcome := .panicked
                input := some foo }
            | (statusCalls, .returned (some err)) =>
              { calls := calls ++ updateCalls ++ statusCalls
                outcome := .returned (none, some err), input := some foo }
            | (statusCalls, .returned none) =>
              { calls := calls ++ updateCalls ++ statusCalls
                outcome := .returned (none, none), input := some foo }

/-- The handler `OnDeploymentChanged`. -/
def OnDeploymentChanged (h : Handler) (_key : String) (deployment : Option Deployment) :
    Pass Deployment :=
  match deployment with
  | none => { calls := [], outcome := .returned (none, none), input := none }
  | some deployment =>
    match GetControllerOf deployment.ObjectMeta with
    | some ownerRef =>
      if ownerRef.Kind ≠ "Foo" then
        { calls := [], outcome := .returned (none, none), input := some deployment }
      else
        let res := h.foosCacheGet deployment.ObjectMeta.Namespace ownerRef.Name
        let calls := [Call.foosCacheGet deployment.ObjectMeta.Namespace ownerRef.Name res]
        match res.2 with
        | some _ =>
          { calls := calls ++ [.Infof ("ignoring orphaned object " ++ "\x27"
                        ++ deployment.ObjectMeta.SelfLink ++ "\x27" ++ " of foo " ++ "\x27"
                        ++ ownerRef.Name ++ "\x27")]
            outcome := .returned (none, none), input := some deployment }
        | none =>
          match res.1 with
          | none => { calls := calls, outcome := .panicked, input := some deployment }
          | some foo =>
            { calls := calls ++ [.foosEnqueue foo.ObjectMeta.Namespace foo.ObjectMeta.Name]
              outcome := .returned (none, none), input := some deployment }
    | none => { calls := [], outcome := .returned (none, none), input := some deployment }

/-! ## Observations on the calls of a pass -/

/-- The arguments of the `deployments.Create` calls, in order. -/
def creates : List Call → List Deployment
  | [] => []
  | .deploymentsCreate d _ :: cs => d :: creates cs
  | _ :: cs => creates cs

/-- The arguments of the `deployments.Update` calls, in order. -/
def updates : List Call → List Deployment
  | [] => []
  | .deploymentsUpdate d _ :: cs => d :: updates cs
  | _ :: cs => updates cs

/-- The arguments of the `foos.Update` calls, in order. -/
def fooWrites : List Call → List Foo
  | [] => []
  | .foosUpdate foo _ :: cs => foo :: fooWrites cs
  | _ :: cs => fooWrites cs

/-- The events sent to the recorder, in order: subject, type, reason, message. -/
def events : List Call → List (Foo × String × String × String)
  | [] => []
  | .recorderEvent object eventtype reason message :: cs =>
    (object, eventtype, reason, message) :: events cs
  | _ :: cs => events cs

/-- The keys handed to `foos.Enqueue`, in order. -/
def enqueues : List Call → List (String × String)
  | [] => []
  | .foosEnqueue ns name :: cs => (ns, name) :: enqueues cs
  | _ :: cs => enqueues cs

/-- The errors reported to `utilruntime.HandleError`, in order. -/
def handledErrors : List Call → List String
  | [] => []
  | .HandleError err :: cs => err :: handledErrors cs
  | _ :: cs => handledErrors cs

/-- A call on a store: a cache lookup or a client create or update. -/
def Call.isStore : Call → Bool
  | .deploymentsCacheGet _ _ _ => true
  | .deploymentsCreate _ _ => true
  | .deploymentsUpdate _ _ => true
  | .foosUpdate _ _ => true
  | .foosCacheGet _ _ _ => true
  | _ => false

/-- The store calls of a pass, in order. -/
def storeCalls (cs : List Call) : List Call := cs.filter Call.isStore

/-- A failing store call of `OnFooChanged` and its error: a cache lookup whose
error is not NotFound, or a Deployment create, a Deployment update or a Foo
write that returned an error. -/
def Call.storeFailure : Call → Option Err
  | .deploymentsCacheGet _ _ (_, some err) => if IsNotFound (some err) then none else some err
  | .deploymentsCreate _ (_, some err) => some err
  | .deploymentsUpdate _ (_, some err) => some err
  | .foosUpdate _ (_, some err) => some err
  | _ => none

/-- The Deployments a pass obtained, in order: the objects returned, with a nil
error, by the cache lookup, by Create and by Update. -/
def obtained : List Call → List Deployment
  | [] => []
  | .deploymentsCacheGet _ _ (some d, none) :: cs => d :: obtained cs
  | .deploymentsCreate _ (some d, none) :: cs => d :: obtained cs
  | .deploymentsUpdate _ (some d, none) :: cs => d :: obtained cs
  | _ :: cs => obtained cs

/-- No store call follows a failing store call: checked from the head of the
list of calls. -/
def noStoreCallAfterFailure : List Call → Bool
  | [] => true
  | c :: cs => (c.storeFailure.isNone || (storeCalls cs).isEmpty) && noStoreCallAfterFailure cs

/-! ## A concrete cluster -/

/-- The NotFound error of a lookup that finds nothing. -/
def notFound : Err := { Reason := "NotFound", Message := "not found" }

/-- A transient failure of the store. -/
def unavailable : Err := { Reason := "ServiceUnavailable", Message := "try again later" }

/-- The first Deployment with the given namespace and name. -/
def findDeployment (ns name : String) : List Deployment → Option Deployment
  | [] => none
  | d :: ds =>
    if d.ObjectMeta.Namespace = ns ∧ d.ObjectMeta.Name = name then some d
    else findDeployment ns name ds

/-- The first Foo with the given namespace and name. -/
def findFoo (ns name : String) : List Foo → Option Foo
  | [] => none
  | f :: fs =>
    if f.ObjectMeta.Namespace = ns ∧ f.ObjectMeta.Name = name then some f
    else findFoo ns name fs

/-- A handler over a cluster holding the given Deployments and Foos: lookups
answer from them, NotFound for what is missing; a create or update succeeds
and returns the object sent, with `available` replicas reported available. -/
def cluster (ds : List Deployment) (fs : List Foo) (available : Int) : Handler :=
  { deploymentsCacheGet := fun ns name =>
      match findDeployment ns name ds with
      | some d => (some d, none)
      | none => (none, some notFound)
    deploymentsCreate := fun d =>
      (some { d with Status := { AvailableReplicas := available } }, none)
    deploymentsUpdate := fun d =>
      (some { d with Status := { AvailableReplicas := available } }, none)
    foosUpdate := fun foo => (some foo, none)
    foosCacheGet := fun ns name =>
      match findFoo ns name fs with
      | some foo => (some foo, none)
      | none => (none, some notFound)
    quote := fun s => "\"" ++ s ++ "\""
    SchemeGroupVersion := { Group := "samplecontroller.k8s.io", Version := "v1alpha1" } }

/-- A Foo named `example-foo` that asks for a Deployment `web` with three
replicas. -/
def fooWeb : Foo :=
  { ObjectMeta := { ObjectMeta.zero with
                    Name := "example-foo", Namespace := "default", UID := "uid-foo" }
    Spec := { DeploymentName := "web", Replicas := some 3 }
    Status := { AvailableReplicas := 0 } }

/-- The Deployment `web` owned by `fooWeb`, running `replicas` replicas of
which `available` are available. -/
def webOwned (replicas available : Int) : Deployment :=
  { newDeployment (cluster [] [] 0).SchemeGroupVersion fooWeb with
    Spec := { (newDeployment (cluster [] [] 0).SchemeGroupVersion fooWeb).Spec with
              Replicas := some replicas }
    Status := { AvailableReplicas := available } }

/-- A Deployment `web` whose controller is an object of another kind. -/
def webForeign (replicas : Int) : Deployment :=
  { webOwned replicas 0 with
    ObjectMeta := { (webOwned replicas 0).ObjectMeta with
      OwnerReferences :=
        [{ APIVersion := "apps/v1", Kind := "ReplicaSet", Name := "other", UID := "uid-other"
           Controller := some true, BlockOwnerDeletion := some true }] } }

/-- The same cluster with every Deployment update failing. -/
def failingUpdates (h : Handler) : Handler :=
  { h with deploymentsUpdate := fun _ => (none, some unavailable) }

/-! ## Observations distribute over concatenation -/

theorem creates_append (a b : List Call) : creates (a ++ b) = creates a ++ creates b := by
  induction a with
  | nil => rfl
  | cons c cs ih => cases c <;> simp [creates, ih]

theorem updates_append (a b : List Call) : updates (a ++ b) = updates a ++ updates b := by
  induction a with
  | nil => rfl
  | cons c cs ih => cases c <;> simp [updates, ih]

theorem fooWrites_append (a b : List Call) :
    fooWrites (a ++ b) = fooWrites a ++ fooWrites b := by
  induction a with
  | nil => rfl
  | cons c cs ih => cases c <;> simp [fooWrites, ih]

theorem events_append (a b : List Call) : events (a ++ b) = events a ++ events b := by
  induction a with
  | nil => rfl
  | cons c cs ih => cases c <;> simp [events, ih]

theorem obtained_append (a b : List Call) : obtained (a ++ b) = obtained a ++ obtained b := by
  induction a with
  | nil => rfl
  | cons c cs ih =>
    rcases c with ⟨_, _, ⟨_ | _, _ | _⟩⟩ | ⟨_, ⟨_ | _, _ | _⟩⟩ | ⟨_, ⟨_ | _, _ | _⟩⟩
      | _ | _ | _ | _ | _ | _ <;> simp [obtained, ih]

/-! ## The shape of a pass of `OnFooChanged` -/

theorem lookup_notFound (h : Handler) (foo : Foo)
    (hnf : IsNotFound (h.deploymentsCacheGet foo.ObjectMeta.Namespace
      foo.Spec.DeploymentName).2 = true) :
    OnFooChanged.lookup h foo =
      ([.deploymentsCacheGet foo.ObjectMeta.Namespace foo.Spec.DeploymentName
          (h.deploymentsCacheGet foo.ObjectMeta.Namespace foo.Spec.DeploymentName),
        .deploymentsCreate (newDeployment h.SchemeGroupVersion foo) (h.deploymentsCreate (newDeployment h.SchemeGroupVersion foo))],
       h.deploymentsCreate (newDeployment h.SchemeGroupVersion foo)) := by
  simp [OnFooChanged.lookup, hnf]

theorem lookup_other (h : Handler) (foo : Foo)
    (hnf : IsNotFound (h.deploymentsCacheGet foo.ObjectMeta.Namespace
      foo.Spec.DeploymentName).2 = false) :
    OnFooChanged.lookup h foo =
      ([.deploymentsCacheGet foo.ObjectMeta.Namespace foo.Spec.DeploymentName
          (h.deploymentsCacheGet foo.ObjectMeta.Namespace foo.Spec.DeploymentName)],
       h.deploymentsCacheGet foo.ObjectMeta.Namespace foo.Spec.DeploymentName) := by
  simp [OnFooChanged.lookup, hnf]

theorem onFoo_err (h : Handler) (key : String) (foo : Foo) (hname : foo.Spec.DeploymentName ≠ "")
    (cs : List Call) (x : Option Deployment) (err : Err)
    (hL : OnFooChanged.lookup h foo = (cs, x, some err)) :
    OnFooChanged h key (some foo) =
      { calls := cs, outcome := .returned (none, some err), input := some foo } := by
  unfold OnFooChanged
  simp only [hname, if_false, hL]

theorem onFoo_nil (h : Handler) (key : String) (foo : Foo) (hname : foo.Spec.DeploymentName ≠ "")
    (cs : List Call) (hL : OnFooChanged.lookup h foo = (cs, none, none)) :
    OnFooChanged h key (some foo) =
      { calls := cs, outcome := .panicked, input := some foo } := by
  unfold OnFooChanged
  simp only [hname, if_false, hL]

theorem onFoo_conflict (h : Handler) (key : String) (foo : Foo)
    (hname : foo.Spec.DeploymentName ≠ "") (cs : List Call) (d : Deployment)
    (hL : OnFooChanged.lookup h foo = (cs, some d, none))
    (hc : IsControlledBy d.ObjectMeta foo.ObjectMeta = false) :
    OnFooChanged h key (some foo) =
      { calls := cs ++ [.recorderEvent foo EventTypeWarning ErrResourceExists
                          (MessageResourceExists h d.ObjectMeta.Name)]
        outcome := .returned (none, none), input := some foo } := by
  unfold OnFooChanged
  simp only [hname, if_false, hL, hc, Bool.not_false, if_true]

theorem onFoo_replicas_nil (h : Handler) (key : String) (foo : Foo)
    (hname : foo.Spec.DeploymentName ≠ "") (cs : List Call) (d : Deployment)
    (hL : OnFooChanged.lookup h foo = (cs, some d, none))
    (hc : IsControlledBy d.ObjectMeta foo.ObjectMeta = true)
    (hR : OnFooChanged.replicas h foo d = none) :
    OnFooChanged h key (some foo) =
      { calls := cs, outcome := .panicked, input := some foo } := by
  unfold OnFooChanged
  simp [hname, hL, hc, hR]

theorem onFoo_update_err (h : Handler) (key : String) (foo : Foo)
    (hname : foo.Spec.DeploymentName ≠ "") (cs : List Call) (d : Deployment)
    (hL : OnFooChanged.lookup h foo = (cs, some d, none))
    (hc : IsControlledBy d.ObjectMeta foo.ObjectMeta = true)
    (us : List Call) (x : Option Deployment) (err : Err)
    (hR : OnFooChanged.replicas h foo d = some (us, x, some err)) :
    OnFooChanged h key (some foo) =
      { calls := cs ++ us, outcome := .returned (none, some err), input := some foo } := by
  unfold OnFooChanged
  simp [hname, hL, hc, hR]

theorem onFoo_status_nil (h : Handler) (key : String) (foo : Foo)
    (hname : foo.Spec.DeploymentName ≠ "") (cs : List Call) (d : Deployment)
    (hL : OnFooChanged.lookup h foo = (cs, some d, none))
    (hc : IsControlledBy d.ObjectMeta foo.ObjectMeta = true)
    (us : List Call)
    (hR : OnFooChanged.replicas h foo d = some (us, none, none)) :
    OnFooChanged h key (some foo) =
      { calls := cs ++ us, outcome := .panicked, input := some foo } := by
  unfold OnFooChanged
  simp [hname, hL, hc, hR, updateFooStatus]

theorem onFoo_status (h : Handler) (key : String) (foo : Foo)
    (hname : foo.Spec.DeploymentName ≠ "") (cs : List Call) (d : Deployment)
    (hL : OnFooChanged.lookup h foo = (cs, some d, none))
    (hc : IsControlledBy d.ObjectMeta foo.ObjectMeta = true)
    (us : List Call) (d2 : Deployment)
    (hR : OnFooChanged.replicas h foo d = some (us, some d2, none)) :
    OnFooChanged h key (some foo) =
      { calls := cs ++ us ++
          [.foosUpdate { foo with Status := { AvailableReplicas := d2.Status.AvailableReplicas } }
            (h.foosUpdate
              { foo with Status := { AvailableReplicas := d2.Status.AvailableReplicas } })]
        outcome := .returned (none,
          (h.foosUpdate
              { foo with Status := { AvailableReplicas := d2.Status.AvailableReplicas } }).2)
        input := some foo } := by
  unfold OnFooChanged
  simp only [hname, if_false, hL, hc, hR, updateFooStatus, Foo.DeepCopy]
  cases hres : (h.foosUpdate
    { foo with Status := { AvailableReplicas := d2.Status.AvailableReplicas } }).2 <;> simp [hres]

theorem replicas_unspecified (h : Handler) (foo : Foo) (d : Deployment)
    (hf : foo.Spec.Replicas = none) :
    OnFooChanged.replicas h foo d = some ([], some d, none) := by
  simp [OnFooChanged.replicas, hf]

theorem replicas_nil (h : Handler) (foo : Foo) (d : Deployment) (r : Int)
    (hf : foo.Spec.Replicas = some r) (hd : d.Spec.Replicas = none) :
    OnFooChanged.replicas h foo d = none := by
  simp [OnFooChanged.replicas, hf, hd]

theorem replicas_equal (h : Handler) (foo : Foo) (d : Deployment) (r : Int)
    (hf : foo.Spec.Replicas = some r) (hd : d.Spec.Replicas = some r) :
    OnFooChanged.replicas h foo d = some ([], some d, none) := by
  simp [OnFooChanged.replicas, hf, hd]

theorem replicas_differ (h : Handler) (foo : Foo) (d : Deployment) (r r' : Int)
    (hf : foo.Spec.Replicas = some r) (hd : d.Spec.Replicas = some r') (hne : r ≠ r') :
    OnFooChanged.replicas h foo d =
      some ([.Infof ("Foo " ++ foo.ObjectMeta.Name ++ " replicas: " ++ toString r
                ++ ", deployment replicas: " ++ toString r'),
             .deploymentsUpdate (newDeployment h.SchemeGroupVersion foo) (h.deploymentsUpdate (newDeployment h.SchemeGroupVersion foo))],
            h.deploymentsUpdate (newDeployment h.SchemeGroupVersion foo)) := by
  simp [OnFooChanged.replicas, hf, hd, hne]

/-- The replica step makes no call, or logs and issues one Update of
`newDeployment foo` whose answer it hands on. -/
theorem replicas_cases (h : Handler) (foo : Foo) (d : Deployment) :
    OnFooChanged.replicas h foo d = none
    ∨ OnFooChanged.replicas h foo d = some ([], some d, none)
    ∨ ∃ msg, OnFooChanged.replicas h foo d =
        some ([.Infof msg, .deploymentsUpdate (newDeployment h.SchemeGroupVersion foo)
                (h.deploymentsUpdate (newDeployment h.SchemeGroupVersion foo))],
              h.deploymentsUpdate (newDeployment h.SchemeGroupVersion foo)) := by
  cases hf : foo.Spec.Replicas with
  | none => exact Or.inr (Or.inl (replicas_unspecified h foo d hf))
  | some r =>
    cases hd : d.Spec.Replicas with
    | none => exact Or.inl (replicas_nil h foo d r hf hd)
    | some r' =>
      by_cases hne : r = r'
      · subst hne
        exact Or.inr (Or.inl (replicas_equal h foo d r hf hd))
      · exact Or.inr (Or.inr ⟨_, replicas_differ h foo d r r' hf hd hne⟩)

/-- The lookup step is the cache lookup alone, or the lookup followed by one
Create of `newDeployment foo` whose answer it hands on. -/
theorem lookup_cases (h : Handler) (foo : Foo) :
    OnFooChanged.lookup h foo =
      ([.deploymentsCacheGet foo.ObjectMeta.Namespace foo.Spec.DeploymentName
          (h.deploymentsCacheGet foo.ObjectMeta.Namespace foo.Spec.DeploymentName)],
       h.deploymentsCacheGet foo.ObjectMeta.Namespace foo.Spec.DeploymentName)
      ∧ IsNotFound (h.deploymentsCacheGet foo.ObjectMeta.Namespace
          foo.Spec.DeploymentName).2 = false
    ∨ OnFooChanged.lookup h foo =
      ([.deploymentsCacheGet foo.ObjectMeta.Namespace foo.Spec.DeploymentName
          (h.deploymentsCacheGet foo.ObjectMeta.Namespace foo.Spec.DeploymentName),
        .deploymentsCreate (newDeployment h.SchemeGroupVersion foo) (h.deploymentsCreate (newDeployment h.SchemeGroupVersion foo))],
       h.deploymentsCreate (newDeployment h.SchemeGroupVersion foo))
      ∧ IsNotFound (h.deploymentsCacheGet foo.ObjectMeta.Namespace
          foo.Spec.DeploymentName).2 = true := by
  cases hnf : IsNotFound (h.deploymentsCacheGet foo.ObjectMeta.Namespace
      foo.Spec.DeploymentName).2 with
  | false => exact Or.inl ⟨lookup_other h foo hnf, rfl⟩
  | true => exact Or.inr ⟨lookup_notFound h foo hnf, rfl⟩

/-- Every pass of `OnFooChanged` on a Foo with a deployment name: the calls of
the lookup step, then nothing, or the warning event, or the calls of the
replica step and then at most the one Foo write. -/
theorem onFoo_cases (h : Handler) (key : String) (foo : Foo)
    (hname : foo.Spec.DeploymentName ≠ "") :
    (∃ cs x err, OnFooChanged.lookup h foo = (cs, x, some err)
        ∧ OnFooChanged h key (some foo) =
          { calls := cs, outcome := .returned (none, some err), input := some foo })
    ∨ (∃ cs, OnFooChanged.lookup h foo = (cs, none, none)
        ∧ OnFooChanged h key (some foo) =
          { calls := cs, outcome := .panicked, input := some foo })
    ∨ (∃ cs d, OnFooChanged.lookup h foo = (cs, some d, none)
        ∧ IsControlledBy d.ObjectMeta foo.ObjectMeta = false
        ∧ OnFooChanged h key (some foo) =
          { calls := cs ++ [.recorderEvent foo EventTypeWarning ErrResourceExists
                              (MessageResourceExists h d.ObjectMeta.Name)]
            outcome := .returned (none, none), input := some foo })
    ∨ (∃ cs d, OnFooChanged.lookup h foo = (cs, some d, none)
        ∧ IsControlledBy d.ObjectMeta foo.ObjectMeta = true
        ∧ OnFooChanged.replicas h foo d = none
        ∧ OnFooChanged h key (some foo) =
          { calls := cs, outcome := .panicked, input := some foo })
    ∨ (∃ cs d us x err, OnFooChanged.lookup h foo = (cs, some d, none)
        ∧ IsControlledBy d.ObjectMeta foo.ObjectMeta = true
        ∧ OnFooChanged.replicas h foo d = some (us, x, some err)
        ∧ OnFooChanged h key (some foo) =
          { calls := cs ++ us, outcome := .returned (none, some err), input := some foo })
    ∨ (∃ cs d us, OnFooChanged.lookup h foo = (cs, some d, none)
        ∧ IsControlledBy d.ObjectMeta foo.ObjectMeta = true
        ∧ OnFooChanged.replicas h foo d = some (us, none, none)
        ∧ OnFooChanged h key (some foo) =
          { calls := cs ++ us, outcome := .panicked, input := some foo })
    ∨ (∃ cs d us d2, OnFooChanged.lookup h foo = (cs, some d, none)
        ∧ IsControlledBy d.ObjectMeta foo.ObjectMeta = true
        ∧ OnFooChanged.replicas h foo d = some (us, some d2, none)
        ∧ OnFooChanged h key (some foo) =
          { calls := cs ++ us ++
              [.foosUpdate
                { foo with Status := { AvailableReplicas := d2.Status.AvailableReplicas } }
                (h.foosUpdate
                  { foo with Status := { AvailableReplicas := d2.Status.AvailableReplicas } })]
            outcome := .returned (none,
              (h.foosUpdate
                { foo with Status := { AvailableReplicas := d2.Status.AvailableReplicas } }).2)
            input := some foo }) := by
  rcases hL : OnFooChanged.lookup h foo with ⟨cs, _ | d, _ | err⟩
  · exact Or.inr (Or.inl ⟨cs, rfl, onFoo_nil h key foo hname cs hL⟩)
  · exact Or.inl ⟨cs, none, err, rfl, onFoo_err h key foo hname cs none err hL⟩
  · cases hc : IsControlledBy d.ObjectMeta foo.ObjectMeta with
    | false =>
      exact Or.inr (Or.inr (Or.inl ⟨cs, d, rfl, hc, onFoo_conflict h key foo hname cs d hL hc⟩))
    | true =>
      rcases hR : OnFooChanged.replicas h foo d with _ | ⟨us, _ | d2, _ | err⟩
      · exact Or.inr (Or.inr (Or.inr (Or.inl
          ⟨cs, d, rfl, hc, hR, onFoo_replicas_nil h key foo hname cs d hL hc hR⟩)))
      · exact Or.inr (Or.inr (Or.inr (Or.inr (Or.inr (Or.inl
          ⟨cs, d, us, rfl, hc, hR, onFoo_status_nil h key foo hname cs d hL hc us hR⟩)))))
      · exact Or.inr (Or.inr (Or.inr (Or.inr (Or.inl
          ⟨cs, d, us, none, err, rfl, hc, hR,
            onFoo_update_err h key foo hname cs d hL hc us none err hR⟩))))
      · exact Or.inr (Or.inr (Or.inr (Or.inr (Or.inr (Or.inr
          ⟨cs, d, us, d2, rfl, hc, hR, onFoo_status h key foo hname cs d hL hc us d2 hR⟩)))))
      · exact Or.inr (Or.inr (Or.inr (Or.inr (Or.inl
          ⟨cs, d, us, some d2, err, rfl, hc, hR,
            onFoo_update_err h key foo hname cs d hL hc us (some d2) err hR⟩))))
  · exact Or.inl ⟨cs, some d, err, rfl, onFoo_err h key foo hname cs (some d) err hL⟩

/-- The calls of a replica step that does not panic. -/
theorem replicas_calls (h : Handler) (foo : Foo) (d : Deployment) (us : List Call)
    (r : Option Deployment × Option Err) (hR : OnFooChanged.replicas h foo d = some (us, r)) :
    (us = [] ∧ r = (some d, none))
    ∨ ∃ msg, us = [.Infof msg, .deploymentsUpdate (newDeployment h.SchemeGroupVersion foo)
                    (h.deploymentsUpdate (newDeployment h.SchemeGroupVersion foo))]
        ∧ r = h.deploymentsUpdate (newDeployment h.SchemeGroupVersion foo) := by
  rcases replicas_cases h foo d with hR' | hR' | ⟨msg, hR'⟩
  · rw [hR'] at hR
    exact absurd hR (by simp)
  · rw [hR'] at hR
    obtain ⟨h1, h2⟩ := Prod.mk.inj (Option.some.inj hR)
    exact Or.inl ⟨h1.symm, h2.symm⟩
  · rw [hR'] at hR
    obtain ⟨h1, h2⟩ := Prod.mk.inj (Option.some.inj hR)
    exact Or.inr ⟨msg, h1.symm, h2.symm⟩

/-- When the lookup step hands on a Deployment with a nil error, that
Deployment is the one it obtained, and the step wrote nothing but at most the
Create. -/
theorem lookup_obtained (h : Handler) (foo : Foo) (cs : List Call) (d : Deployment)
    (hL : OnFooChanged.lookup h foo = (cs, some d, none)) :
    obtained cs = [d] ∧ fooWrites cs = [] ∧ updates cs = [] ∧ events cs = [] := by
  rcases lookup_cases h foo with ⟨hL', -⟩ | ⟨hL', hnf⟩
  · rw [hL'] at hL
    obtain ⟨hcs, hgot⟩ := Prod.mk.inj hL
    subst hcs
    rw [hgot]
    simp [obtained, fooWrites, updates, events]
  · rw [hL'] at hL
    obtain ⟨hcs, hcr⟩ := Prod.mk.inj hL
    subst hcs
    rw [hcr]
    rcases hg : h.deploymentsCacheGet foo.ObjectMeta.Namespace foo.Spec.DeploymentName with
      ⟨x, _ | err⟩
    · rw [hg] at hnf
      simp [IsNotFound] at hnf
    · simp [obtained, fooWrites, updates, events]

/-- The calls of the lookup step and the pair it hands on. -/
theorem lookup_calls (h : Handler) (foo : Foo) (cs : List Call)
    (r : Option Deployment × Option Err) (hL : OnFooChanged.lookup h foo = (cs, r)) :
    (cs = [.deploymentsCacheGet foo.ObjectMeta.Namespace foo.Spec.DeploymentName r]
      ∧ h.deploymentsCacheGet foo.ObjectMeta.Namespace foo.Spec.DeploymentName = r
      ∧ IsNotFound r.2 = false)
    ∨ ∃ got, cs = [.deploymentsCacheGet foo.ObjectMeta.Namespace foo.Spec.DeploymentName got,
                  .deploymentsCreate (newDeployment h.SchemeGroupVersion foo) r]
      ∧ h.deploymentsCacheGet foo.ObjectMeta.Namespace foo.Spec.DeploymentName = got
      ∧ h.deploymentsCreate (newDeployment h.SchemeGroupVersion foo) = r
      ∧ IsNotFound got.2 = true := by
  rcases lookup_cases h foo with ⟨hL', hnf⟩ | ⟨hL', hnf⟩
  · rw [hL'] at hL
    obtain ⟨hcs, hres⟩ := Prod.mk.inj hL
    rw [hres] at hcs hnf
    exact Or.inl ⟨hcs.symm, hres, hnf⟩
  · rw [hL'] at hL
    obtain ⟨hcs, hres⟩ := Prod.mk.inj hL
    rw [hres] at hcs
    exact Or.inr ⟨_, hcs.symm, rfl, hres, hnf⟩

/-! ## Creation -/

/-- C1 (creation): for a Foo with a non-empty deployment name whose cache
lookup answers NotFound, `OnFooChanged` issues exactly one
`deployments.Create`, with argument `newDeployment foo`; that Deployment has
the name `Spec.DeploymentName`, the namespace and the replicas of the Foo,
exactly one owner reference (kind Foo, the name and UID of the Foo, controller
flag true), and selector match-labels and pod-template labels both equal to
app: nginx, controller: the name of the Foo. -/
theorem creation_issues_one_create (h : Handler) (key : String) (foo : Foo)
    (hname : foo.Spec.DeploymentName ≠ "")
    (hnf : IsNotFound (h.deploymentsCacheGet foo.ObjectMeta.Namespace
      foo.Spec.DeploymentName).2 = true) :
    creates (OnFooChanged h key (some foo)).calls = [newDeployment h.SchemeGroupVersion foo]
    ∧ (newDeployment h.SchemeGroupVersion foo).ObjectMeta.Name = foo.Spec.DeploymentName
    ∧ (newDeployment h.SchemeGroupVersion foo).ObjectMeta.Namespace = foo.ObjectMeta.Namespace
    ∧ (newDeployment h.SchemeGroupVersion foo).Spec.Replicas = foo.Spec.Replicas
    ∧ (∃ ref, (newDeployment h.SchemeGroupVersion foo).ObjectMeta.OwnerReferences = [ref]
        ∧ ref.Kind = "Foo" ∧ ref.Name = foo.ObjectMeta.Name ∧ ref.UID = foo.ObjectMeta.UID
        ∧ ref.Controller = some true)
    ∧ (newDeployment h.SchemeGroupVersion foo).Spec.Selector =
        some { MatchLabels := [("app", "nginx"), ("controller", foo.ObjectMeta.Name)] }
    ∧ (newDeployment h.SchemeGroupVersion foo).Spec.Template.ObjectMeta.Labels =
        [("app", "nginx"), ("controller", foo.ObjectMeta.Name)] := by
  refine ⟨?_, rfl, rfl, rfl, ⟨_, rfl, rfl, rfl, rfl, rfl⟩, rfl, rfl⟩
  have hL := lookup_notFound h foo hnf
  rcases onFoo_cases h key foo hname with
    ⟨cs, x, err, hL', hp⟩ | ⟨cs, hL', hp⟩ | ⟨cs, d, hL', -, hp⟩ | ⟨cs, d, hL', -, -, hp⟩
    | ⟨cs, d, us, x, err, hL', -, hR, hp⟩ | ⟨cs, d, us, hL', -, hR, hp⟩
    | ⟨cs, d, us, d2, hL', -, hR, hp⟩
  all_goals
    rw [hL] at hL'
    obtain ⟨hcs, -⟩ := Prod.mk.inj hL'
    subst hcs
    rw [hp]
  · simp [creates]
  · simp [creates]
  · simp [creates, creates_append]
  · simp [creates]
  all_goals
    rcases replicas_calls h foo d us _ hR with ⟨hus, -⟩ | ⟨msg, hus, -⟩ <;>
    · subst hus
      simp [creates, creates_append]

/-- C1 at the Foo `fooWeb` in an empty cluster. -/
theorem creation_issues_one_create_witness :
    creates (OnFooChanged (cluster [] [] 0) "default/example-foo" (some fooWeb)).calls
      = [newDeployment (cluster [] [] 0).SchemeGroupVersion fooWeb]
    ∧ (newDeployment (cluster [] [] 0).SchemeGroupVersion fooWeb).ObjectMeta.Name = "web" :=
  ⟨(creation_issues_one_create (cluster [] [] 0) "default/example-foo" fooWeb
      (by decide) (by rfl)).1, rfl⟩

/-! ## Drift correction -/

/-- C2 (drift correction): for a Foo with a non-empty deployment name whose
cached Deployment is controlled by it and has replicas `r'`: when the Foo
specifies `r` and `r ≠ r'`, `OnFooChanged` issues exactly one
`deployments.Update`, with argument `newDeployment foo`, whose replicas are
`r`; when the Foo specifies `r'` or no replica count, it issues no Update; and
in no case does it issue a Create. -/
theorem drift_correction (h : Handler) (key : String) (foo : Foo) (d : Deployment) (r' : Int)
    (hname : foo.Spec.DeploymentName ≠ "")
    (hget : h.deploymentsCacheGet foo.ObjectMeta.Namespace foo.Spec.DeploymentName
      = (some d, none))
    (hc : IsControlledBy d.ObjectMeta foo.ObjectMeta = true)
    (hd : d.Spec.Replicas = some r') :
    (∀ r, foo.Spec.Replicas = some r → r ≠ r' →
        updates (OnFooChanged h key (some foo)).calls = [newDeployment h.SchemeGroupVersion foo]
        ∧ (newDeployment h.SchemeGroupVersion foo).Spec.Replicas = some r)
    ∧ (foo.Spec.Replicas = some r' ∨ foo.Spec.Replicas = none →
        updates (OnFooChanged h key (some foo)).calls = [])
    ∧ creates (OnFooChanged h key (some foo)).calls = [] := by
  have hL := lookup_other h foo (by rw [hget]; rfl)
  rw [hget] at hL
  have key_fact : ∀ us r, OnFooChanged.replicas h foo d = some (us, r) →
      (OnFooChanged h key (some foo)).calls =
        [.deploymentsCacheGet foo.ObjectMeta.Namespace foo.Spec.DeploymentName (some d, none)]
          ++ us
      ∨ ∃ f res, (OnFooChanged h key (some foo)).calls =
        [.deploymentsCacheGet foo.ObjectMeta.Namespace foo.Spec.DeploymentName (some d, none)]
          ++ us ++ [.foosUpdate f res] := by
    intro us r hR
    rcases r with ⟨_ | d2, _ | err⟩
    · exact Or.inl (by rw [onFoo_status_nil h key foo hname _ d hL hc us hR])
    · exact Or.inl (by rw [onFoo_update_err h key foo hname _ d hL hc us none err hR])
    · exact Or.inr ⟨_, _, by rw [onFoo_status h key foo hname _ d hL hc us d2 hR]⟩
    · exact Or.inl (by rw [onFoo_update_err h key foo hname _ d hL hc us (some d2) err hR])
  refine ⟨?_, ?_, ?_⟩
  · intro r hf hne
    refine ⟨?_, hf⟩
    rcases key_fact _ _ (replicas_differ h foo d r r' hf hd hne) with hp | ⟨f, res, hp⟩ <;>
      simp [hp, updates, updates_append]
  · intro hf
    have hR : OnFooChanged.replicas h foo d = some ([], some d, none) := by
      rcases hf with hf | hf
      · exact replicas_equal h foo d r' hf hd
      · exact replicas_unspecified h foo d hf
    rcases key_fact _ _ hR with hp | ⟨f, res, hp⟩ <;> simp [hp, updates, updates_append]
  · cases hf : foo.Spec.Replicas with
    | none =>
      rcases key_fact _ _ (replicas_unspecified h foo d hf) with hp | ⟨f, res, hp⟩ <;>
        simp [hp, creates, creates_append]
    | some r =>
      by_cases hne : r = r'
      · subst hne
        rcases key_fact _ _ (replicas_equal h foo d r hf hd) with hp | ⟨f, res, hp⟩ <;>
          simp [hp, creates, creates_append]
      · rcases key_fact _ _ (replicas_differ h foo d r r' hf hd hne) with hp | ⟨f, res, hp⟩ <;>
          simp [hp, creates, creates_append]

/-- C2 at `fooWeb` (three replicas) with the owned Deployment `web` at one
replica: one Update, to three replicas. -/
theorem drift_correction_witness :
    updates (OnFooChanged (cluster [webOwned 1 1] [] 1) "default/example-foo"
        (some fooWeb)).calls = [newDeployment (cluster [webOwned 1 1] [] 1).SchemeGroupVersion fooWeb]
    ∧ (newDeployment (cluster [webOwned 1 1] [] 1).SchemeGroupVersion fooWeb).Spec.Replicas = some 3 :=
  (drift_correction (cluster [webOwned 1 1] [] 1) "default/example-foo" fooWeb (webOwned 1 1) 1
    (by decide) (by rfl) (by rfl) (by rfl)).1 3 rfl (by decide)

/-! ## Conflict non-interference -/

/-- C3 (conflict non-interference): for a Foo with a non-empty deployment name
whose cached Deployment has no controller owner reference, or one whose UID is
not the UID of the Foo, `OnFooChanged` issues no Deployment create, no
Deployment update and no Foo write, sends exactly one event, a Warning with
reason ErrResourceExists on the Foo, and returns a nil error, whatever the
replica counts of the two objects. -/
theorem conflict_non_interference (h : Handler) (key : String) (foo : Foo) (d : Deployment)
    (hname : foo.Spec.DeploymentName ≠ "")
    (hget : h.deploymentsCacheGet foo.ObjectMeta.Namespace foo.Spec.DeploymentName
      = (some d, none))
    (hown : GetControllerOf d.ObjectMeta = none
      ∨ ∃ ref, GetControllerOf d.ObjectMeta = some ref ∧ ref.UID ≠ foo.ObjectMeta.UID) :
    creates (OnFooChanged h key (some foo)).calls = []
    ∧ updates (OnFooChanged h key (some foo)).calls = []
    ∧ fooWrites (OnFooChanged h key (some foo)).calls = []
    ∧ events (OnFooChanged h key (some foo)).calls =
        [(foo, "Warning", "ErrResourceExists", MessageResourceExists h d.ObjectMeta.Name)]
    ∧ (OnFooChanged h key (some foo)).outcome = .returned (none, none) := by
  have hc : IsControlledBy d.ObjectMeta foo.ObjectMeta = false := by
    rcases hown with hn | ⟨ref, hr, hne⟩
    · simp [IsControlledBy, hn]
    · simp [IsControlledBy, hr, hne]
  have hL := lookup_other h foo (by rw [hget]; rfl)
  rw [hget] at hL
  rw [onFoo_conflict h key foo hname _ d hL hc]
  simp [creates, updates, fooWrites, events, EventTypeWarning, ErrResourceExists]

/-- C3 at `fooWeb` (three replicas) with a Deployment `web` at one replica
that a ReplicaSet controls. -/
theorem conflict_non_interference_witness :
    creates (OnFooChanged (cluster [webForeign 1] [] 1) "default/example-foo"
        (some fooWeb)).calls = []
    ∧ updates (OnFooChanged (cluster [webForeign 1] [] 1) "default/example-foo"
        (some fooWeb)).calls = []
    ∧ fooWrites (OnFooChanged (cluster [webForeign 1] [] 1) "default/example-foo"
        (some fooWeb)).calls = []
    ∧ events (OnFooChanged (cluster [webForeign 1] [] 1) "default/example-foo"
        (some fooWeb)).calls =
        [(fooWeb, "Warning", "ErrResourceExists",
          MessageResourceExists (cluster [webForeign 1] [] 1) (webForeign 1).ObjectMeta.Name)]
    ∧ (OnFooChanged (cluster [webForeign 1] [] 1) "default/example-foo"
        (some fooWeb)).outcome = .returned (none, none) :=
  conflict_non_interference (cluster [webForeign 1] [] 1) "default/example-foo" fooWeb
    (webForeign 1) (by decide) (by rfl) (Or.inr ⟨_, rfl, by decide⟩)

/-! ## Missing deployment name -/

/-- C6 (missing field): for a Foo whose `Spec.DeploymentName` is empty,
`OnFooChanged` makes no store call and sends no event, reports exactly one
error, `key: deployment name must be specified`, to the error sink, and
returns a nil error. -/
theorem missing_name_absorbed (h : Handler) (key : String) (foo : Foo)
    (hname : foo.Spec.DeploymentName = "") :
    storeCalls (OnFooChanged h key (some foo)).calls = []
    ∧ events (OnFooChanged h key (some foo)).calls = []
    ∧ handledErrors (OnFooChanged h key (some foo)).calls
        = [key ++ ": deployment name must be specified"]
    ∧ (OnFooChanged h key (some foo)).calls
        = [.HandleError (key ++ ": deployment name must be specified")]
    ∧ (OnFooChanged h key (some foo)).outcome = .returned (none, none) := by
  simp [OnFooChanged, hname, storeCalls, events, handledErrors, Call.isStore]

/-- C6 at `fooWeb` with its deployment name erased, in a cluster that holds a
Deployment `web`. -/
theorem missing_name_absorbed_witness :
    (OnFooChanged (cluster [webOwned 1 1] [] 1) "default/example-foo"
        (some { fooWeb with Spec := { DeploymentName := "", Replicas := some 3 } })).calls
      = [.HandleError "default/example-foo: deployment name must be specified"] :=
  (missing_name_absorbed (cluster [webOwned 1 1] [] 1) "default/example-foo"
    { fooWeb with Spec := { DeploymentName := "", Replicas := some 3 } } rfl).2.2.2.1

/-! ## Status propagation -/

/-- C4 (status propagation): when a pass of `OnFooChanged` returns a nil error
and a Deployment it obtained is controlled by the Foo, exactly one Foo write
is issued; the object written has the metadata and the spec of the input Foo,
and its `Status.AvailableReplicas` is that of the last Deployment obtained in
the pass (from the cache, from Create or from Update); and the input Foo
stands unchanged when the pass ends. -/
theorem status_propagation (h : Handler) (key : String) (foo : Foo)
    (hok : (OnFooChanged h key (some foo)).outcome = .returned (none, none))
    (hown : ∃ d ∈ obtained (OnFooChanged h key (some foo)).calls,
      IsControlledBy d.ObjectMeta foo.ObjectMeta = true) :
    ∃ d, (obtained (OnFooChanged h key (some foo)).calls).getLast? = some d
      ∧ fooWrites (OnFooChanged h key (some foo)).calls =
          [{ ObjectMeta := foo.ObjectMeta, Spec := foo.Spec
             Status := { AvailableReplicas := d.Status.AvailableReplicas } }]
      ∧ (OnFooChanged h key (some foo)).input = some foo := by
  by_cases hname : foo.Spec.DeploymentName = ""
  · obtain ⟨d, hd, -⟩ := hown
    simp [OnFooChanged, hname, obtained] at hd
  rcases onFoo_cases h key foo hname with
    ⟨cs, x, err, hL, hp⟩ | ⟨cs, hL, hp⟩ | ⟨cs, d, hL, hc, hp⟩ | ⟨cs, d, hL, -, -, hp⟩
    | ⟨cs, d, us, x, err, hL, -, hR, hp⟩ | ⟨cs, d, us, hL, -, hR, hp⟩
    | ⟨cs, d, us, d2, hL, -, hR, hp⟩
  · rw [hp] at hok
    simp at hok
  · rw [hp] at hok
    simp at hok
  · obtain ⟨d', hd', hc'⟩ := hown
    rw [hp, obtained_append, (lookup_obtained h foo cs d hL).1] at hd'
    simp [obtained] at hd'
    subst hd'
    rw [hc] at hc'
    exact absurd hc' (by simp)
  · rw [hp] at hok
    simp at hok
  · rw [hp] at hok
    simp at hok
  · rw [hp] at hok
    simp at hok
  · obtain ⟨ho, hw, hu, he⟩ := lookup_obtained h foo cs d hL
    refine ⟨d2, ?_, ?_, ?_⟩
    · rw [hp]
      rcases replicas_calls h foo d us _ hR with ⟨hus, hr⟩ | ⟨msg, hus, hr⟩
      · subst hus
        obtain ⟨hd, -⟩ := Prod.mk.inj hr
        simp [obtained_append, ho, obtained, Option.some.inj hd]
      · subst hus
        simp [obtained_append, ho, obtained, ← hr]
    · rw [hp]
      rcases replicas_calls h foo d us _ hR with ⟨hus, -⟩ | ⟨msg, hus, -⟩ <;>
      · subst hus
        simp [fooWrites_append, hw, fooWrites]
    · rw [hp]

/-- C4 at `fooWeb` with the owned Deployment `web`, three replicas of which
two are available: the Foo written is `fooWeb` with two available replicas. -/
theorem status_propagation_witness :
    ∃ d, (obtained (OnFooChanged (cluster [webOwned 3 2] [] 2) "default/example-foo"
        (some fooWeb)).calls).getLast? = some d
      ∧ fooWrites (OnFooChanged (cluster [webOwned 3 2] [] 2) "default/example-foo"
          (some fooWeb)).calls =
          [{ ObjectMeta := fooWeb.ObjectMeta, Spec := fooWeb.Spec
             Status := { AvailableReplicas := d.Status.AvailableReplicas } }]
      ∧ (OnFooChanged (cluster [webOwned 3 2] [] 2) "default/example-foo"
          (some fooWeb)).input = some fooWeb :=
  status_propagation (cluster [webOwned 3 2] [] 2) "default/example-foo" fooWeb
    (by rfl) ⟨webOwned 3 2, by decide, by rfl⟩

/-! ## Owner propagation -/

/-- C5 (owner propagation): for a Deployment that is present, when its
controller owner reference has kind Foo and the Foo cache lookup of the
Deployment namespace and the reference name returns a Foo, the handler
enqueues exactly one key, the namespace and name of that Foo; it enqueues
nothing when there is no controller reference, when its kind is not Foo, or
when the lookup returns an error; in all these cases it returns nil, nil; and
what is enqueued and returned depends on the Deployment only through its
controller reference and its namespace. -/
theorem owner_propagation (h : Handler) (key : String) (d : Deployment) :
    (∀ ref foo, GetControllerOf d.ObjectMeta = some ref → ref.Kind = "Foo" →
        h.foosCacheGet d.ObjectMeta.Namespace ref.Name = (some foo, none) →
        enqueues (OnDeploymentChanged h key (some d)).calls
          = [(foo.ObjectMeta.Namespace, foo.ObjectMeta.Name)]
        ∧ (OnDeploymentChanged h key (some d)).outcome = .returned (none, none))
    ∧ (GetControllerOf d.ObjectMeta = none →
        enqueues (OnDeploymentChanged h key (some d)).calls = []
        ∧ (OnDeploymentChanged h key (some d)).outcome = .returned (none, none))
    ∧ (∀ ref, GetControllerOf d.ObjectMeta = some ref → ref.Kind ≠ "Foo" →
        enqueues (OnDeploymentChanged h key (some d)).calls = []
        ∧ (OnDeploymentChanged h key (some d)).outcome = .returned (none, none))
    ∧ (∀ ref x err, GetControllerOf d.ObjectMeta = some ref → ref.Kind = "Foo" →
        h.foosCacheGet d.ObjectMeta.Namespace ref.Name = (x, some err) →
        enqueues (OnDeploymentChanged h key (some d)).calls = []
        ∧ (OnDeploymentChanged h key (some d)).outcome = .returned (none, none))
    ∧ (∀ d2 : Deployment, GetControllerOf d2.ObjectMeta = GetControllerOf d.ObjectMeta →
        d2.ObjectMeta.Namespace = d.ObjectMeta.Namespace →
        enqueues (OnDeploymentChanged h key (some d2)).calls
          = enqueues (OnDeploymentChanged h key (some d)).calls
        ∧ (OnDeploymentChanged h key (some d2)).outcome
            = (OnDeploymentChanged h key (some d)).outcome) := by
  refine ⟨?_, ?_, ?_, ?_, ?_⟩
  · intro ref foo hr hk hg
    simp [OnDeploymentChanged, hr, hk, hg, enqueues]
  · intro hr
    simp [OnDeploymentChanged, hr, enqueues]
  · intro ref hr hk
    simp [OnDeploymentChanged, hr, hk, enqueues]
  · intro ref x err hr hk hg
    simp [OnDeploymentChanged, hr, hk, hg, enqueues]
  · intro d2 hr hns
    unfold OnDeploymentChanged
    simp only [hr, hns]
    cases GetControllerOf d.ObjectMeta with
    | none => exact ⟨rfl, rfl⟩
    | some ref =>
      by_cases hk : ref.Kind = "Foo"
      · simp only [hk, ne_eq, not_true_eq_false, if_false]
        rcases h.foosCacheGet d.ObjectMeta.Namespace ref.Name with ⟨_ | foo, _ | err⟩ <;>
          simp [enqueues]
      · simp only [hk, ne_eq, not_false_eq_true, if_true]
        exact ⟨trivial, trivial⟩

/-- C5 at the owned Deployment `web` in a cluster that holds `fooWeb`: the key
of `fooWeb` is enqueued once. -/
theorem owner_propagation_witness :
    enqueues (OnDeploymentChanged (cluster [webOwned 1 1] [fooWeb] 1) "default/web"
        (some (webOwned 1 1))).calls = [("default", "example-foo")]
    ∧ (OnDeploymentChanged (cluster [webOwned 1 1] [fooWeb] 1) "default/web"
        (some (webOwned 1 1))).outcome = .returned (none, none) :=
  (owner_propagation (cluster [webOwned 1 1] [fooWeb] 1) "default/web" (webOwned 1 1)).1
    _ fooWeb rfl rfl rfl

/-! ## Error propagation -/

theorem storeFailure_get (ns name : String) (r : Option Deployment × Option Err) :
    (Call.deploymentsCacheGet ns name r).storeFailure
      = if IsNotFound r.2 then none else r.2 := by
  rcases r with ⟨x, _ | err⟩
  · simp [Call.storeFailure, IsNotFound]
  · simp [Call.storeFailure]

theorem storeFailure_create (d : Deployment) (r : Option Deployment × Option Err) :
    (Call.deploymentsCreate d r).storeFailure = r.2 := by
  rcases r with ⟨x, _ | err⟩ <;> simp [Call.storeFailure]

theorem storeFailure_update (d : Deployment) (r : Option Deployment × Option Err) :
    (Call.deploymentsUpdate d r).storeFailure = r.2 := by
  rcases r with ⟨x, _ | err⟩ <;> simp [Call.storeFailure]

theorem storeFailure_foosUpdate (foo : Foo) (r : Option Foo × Option Err) :
    (Call.foosUpdate foo r).storeFailure = r.2 := by
  rcases r with ⟨x, _ | err⟩ <;> simp [Call.storeFailure]

theorem storeFailure_other (c : Call)
    (hc : (∃ ns name, c = .foosEnqueue ns name) ∨ (∃ o t r m, c = .recorderEvent o t r m)
      ∨ (∃ e, c = .HandleError e) ∨ (∃ m, c = .Infof m)) :
    c.storeFailure = none := by
  rcases hc with ⟨_, _, rfl⟩ | ⟨_, _, _, _, rfl⟩ | ⟨_, rfl⟩ | ⟨_, rfl⟩ <;> rfl

/-- What the head-first check says about every split of the list of calls. -/
theorem noStoreCallAfterFailure_split (l : List Call) (hl : noStoreCallAfterFailure l = true)
    (pre : List Call) (c : Call) (post : List Call) (hsplit : l = pre ++ c :: post)
    (hfail : c.storeFailure ≠ none) : storeCalls post = [] := by
  induction pre generalizing l with
  | nil =>
    subst hsplit
    simp only [List.nil_append, noStoreCallAfterFailure, Bool.and_eq_true, Bool.or_eq_true] at hl
    rcases hl.1 with hn | he
    · exact absurd (Option.isNone_iff_eq_none.mp hn) hfail
    · exact List.isEmpty_iff.mp he
  | cons a pre ih =>
    subst hsplit
    simp only [List.cons_append, noStoreCallAfterFailure, Bool.and_eq_true] at hl
    exact ih _ hl.2 rfl

/-- The two core facts of error propagation on a Foo with a deployment name. -/
theorem onFoo_error_core (h : Handler) (key : String) (foo : Foo)
    (hname : foo.Spec.DeploymentName ≠ "") :
    (∀ e, (∃ o, (OnFooChanged h key (some foo)).outcome = .returned (o, some e))
        ↔ ∃ c ∈ (OnFooChanged h key (some foo)).calls, c.storeFailure = some e)
    ∧ noStoreCallAfterFailure (OnFooChanged h key (some foo)).calls = true := by
  rcases onFoo_cases h key foo hname with
    ⟨cs, x, err, hL, hp⟩ | ⟨cs, hL, hp⟩ | ⟨cs, d, hL, hc, hp⟩ | ⟨cs, d, hL, -, -, hp⟩
    | ⟨cs, d, us, x, err, hL, -, hR, hp⟩ | ⟨cs, d, us, hL, -, hR, hp⟩
    | ⟨cs, d, us, d2, hL, -, hR, hp⟩
  · rw [hp]
    rcases lookup_calls h foo cs _ hL with ⟨hcs, -, hnf⟩ | ⟨got, hcs, -, -, hnf⟩ <;>
    · subst hcs
      simp [storeFailure_get, storeFailure_create, noStoreCallAfterFailure, storeCalls,
        Call.isStore, hnf]
  · rw [hp]
    rcases lookup_calls h foo cs _ hL with ⟨hcs, -, hnf⟩ | ⟨got, hcs, -, -, hnf⟩ <;>
    · subst hcs
      simp [storeFailure_get, storeFailure_create, noStoreCallAfterFailure, storeCalls,
        Call.isStore, hnf]
  · rw [hp]
    rcases lookup_calls h foo cs _ hL with ⟨hcs, -, hnf⟩ | ⟨got, hcs, -, -, hnf⟩ <;>
    · subst hcs
      simp [storeFailure_get, storeFailure_create, storeFailure_other, noStoreCallAfterFailure,
        storeCalls, Call.isStore, hnf]
  · rw [hp]
    rcases lookup_calls h foo cs _ hL with ⟨hcs, -, hnf⟩ | ⟨got, hcs, -, -, hnf⟩ <;>
    · subst hcs
      simp [storeFailure_get, storeFailure_create, noStoreCallAfterFailure, storeCalls,
        Call.isStore, hnf]
  all_goals
    rw [hp]
    rcases lookup_calls h foo cs _ hL with ⟨hcs, -, hnf⟩ | ⟨got, hcs, -, -, hnf⟩ <;>
    rcases replicas_calls h foo d us _ hR with ⟨hus, hr⟩ | ⟨msg, hus, hr⟩ <;>
    · subst hcs
      subst hus
      first
      | (cases hr; done)
      | (try rw [← hr])
        simp [storeFailure_get, storeFailure_create, storeFailure_update,
          storeFailure_foosUpdate, storeFailure_other, noStoreCallAfterFailure, storeCalls,
          Call.isStore, hnf]

/-- C7 (error propagation): for every input, `OnFooChanged` returns a non-nil
error `e` if and only if a store call of that pass failed with `e`, where a
failing store call is a cache lookup whose error is not NotFound, a Deployment
create, a Deployment update or a Foo write that returned an error; no store
call follows a failing one; a NotFound from the cache lookup is no failure and
leads to the Create; and a nil Foo, an empty deployment name and a Deployment
not controlled by the Foo all end with a nil error. -/
theorem error_propagation (h : Handler) (key : String) (foo : Option Foo) :
    (∀ e, (∃ o, (OnFooChanged h key foo).outcome = .returned (o, some e))
        ↔ ∃ c ∈ (OnFooChanged h key foo).calls, c.storeFailure = some e)
    ∧ (∀ pre c post, (OnFooChanged h key foo).calls = pre ++ c :: post →
        c.storeFailure ≠ none → storeCalls post = [])
    ∧ (∀ f x err, foo = some f → f.Spec.DeploymentName ≠ "" →
        h.deploymentsCacheGet f.ObjectMeta.Namespace f.Spec.DeploymentName = (x, some err) →
        IsNotFound (some err) = true →
        (Call.deploymentsCacheGet f.ObjectMeta.Namespace f.Spec.DeploymentName
            (x, some err)).storeFailure = none
        ∧ creates (OnFooChanged h key foo).calls = [newDeployment h.SchemeGroupVersion f])
    ∧ (foo = none → (OnFooChanged h key foo).outcome = .returned (none, none))
    ∧ (∀ f, foo = some f → f.Spec.DeploymentName = "" →
        (OnFooChanged h key foo).outcome = .returned (none, none))
    ∧ (∀ f cs d, foo = some f → f.Spec.DeploymentName ≠ "" →
        OnFooChanged.lookup h f = (cs, some d, none) →
        IsControlledBy d.ObjectMeta f.ObjectMeta = false →
        (OnFooChanged h key foo).outcome = .returned (none, none)) := by
  have core : (∀ e, (∃ o, (OnFooChanged h key foo).outcome = .returned (o, some e))
        ↔ ∃ c ∈ (OnFooChanged h key foo).calls, c.storeFailure = some e)
      ∧ noStoreCallAfterFailure (OnFooChanged h key foo).calls = true := by
    cases foo with
    | none => simp [OnFooChanged, noStoreCallAfterFailure]
    | some f =>
      by_cases hname : f.Spec.DeploymentName = ""
      · simp [OnFooChanged, hname, noStoreCallAfterFailure, storeCalls, storeFailure_other]
      · exact onFoo_error_core h key f hname
  refine ⟨core.1, ?_, ?_, ?_, ?_, ?_⟩
  · intro pre c post hsplit hfail
    exact noStoreCallAfterFailure_split _ core.2 pre c post hsplit hfail
  · intro f x err hf hname hget hnf
    subst hf
    refine ⟨by simp [Call.storeFailure, hnf], ?_⟩
    have hL := lookup_notFound h f (by rw [hget]; exact hnf)
    rcases onFoo_cases h key f hname with
      ⟨cs, x, err, hL', hp⟩ | ⟨cs, hL', hp⟩ | ⟨cs, d, hL', -, hp⟩ | ⟨cs, d, hL', -, -, hp⟩
      | ⟨cs, d, us, x, err, hL', -, hR, hp⟩ | ⟨cs, d, us, hL', -, hR, hp⟩
      | ⟨cs, d, us, d2, hL', -, hR, hp⟩
    all_goals
      rw [hL] at hL'
      obtain ⟨hcs, -⟩ := Prod.mk.inj hL'
      subst hcs
      rw [hp]
    · simp [creates]
    · simp [creates]
    · simp [creates, creates_append]
    · simp [creates]
    all_goals
      rcases replicas_calls h f d us _ hR with ⟨hus, -⟩ | ⟨msg, hus, -⟩ <;>
      · subst hus
        simp [creates, creates_append]
  · intro hf
    subst hf
    rfl
  · intro f hf hname
    subst hf
    simp [OnFooChanged, hname]
  · intro f cs d hf hname hL hc
    subst hf
    rw [onFoo_conflict h key f hname cs d hL hc]

/-- C7 at `fooWeb` with the owned Deployment `web` at one replica, in a cluster
whose Deployment updates fail: the error of the Update is returned. -/
theorem error_propagation_witness :
    ∃ o, (OnFooChanged (failingUpdates (cluster [webOwned 1 1] [] 1)) "default/example-foo"
      (some fooWeb)).outcome = .returned (o, some unavailable) :=
  ((error_propagation (failingUpdates (cluster [webOwned 1 1] [] 1)) "default/example-foo"
    (some fooWeb)).1 unavailable).mpr
    ⟨.deploymentsUpdate (newDeployment (cluster [webOwned 1 1] [] 1).SchemeGroupVersion fooWeb)
        (none, some unavailable), by decide, rfl⟩

/-! ## Idempotence -/

/-- C8 as stated fails: `fooWeb` with two available replicas recorded and its
owned Deployment `web` (three replicas, two available) are in agreement, and
the pass still writes the Foo. -/
theorem idempotence_counterexample :
    ¬ ∀ (h : Handler) (key : String) (foo : Foo) (d : Deployment),
      foo.Spec.DeploymentName ≠ "" →
      h.deploymentsCacheGet foo.ObjectMeta.Namespace foo.Spec.DeploymentName = (some d, none) →
      IsControlledBy d.ObjectMeta foo.ObjectMeta = true →
      (foo.Spec.Replicas = none ∨ foo.Spec.Replicas = d.Spec.Replicas) →
      foo.Status.AvailableReplicas = d.Status.AvailableReplicas →
      creates (OnFooChanged h key (some foo)).calls = []
      ∧ updates (OnFooChanged h key (some foo)).calls = []
      ∧ fooWrites (OnFooChanged h key (some foo)).calls = [] := by
  intro hall
  have hw := (hall (cluster [webOwned 3 2] [] 2) "default/example-foo"
    { fooWeb with Status := { AvailableReplicas := 2 } } (webOwned 3 2)
    (by decide) (by rfl) (by rfl) (Or.inr rfl) rfl).2.2
  exact absurd hw (by decide)

/-- C8 (idempotence), amended: for a Foo with a non-empty deployment name and
its cached Deployment, controlled by it, that are in agreement (the replica
count of the Foo is unspecified or equal to that of the Deployment, and the
available replicas recorded on the Foo are those of the Deployment),
`OnFooChanged` issues no Deployment create and no Deployment update, and
exactly one Foo write, of an object equal to the input Foo. -/
theorem idempotence_up_to_status_write (h : Handler) (key : String) (foo : Foo)
    (d : Deployment)
    (hname : foo.Spec.DeploymentName ≠ "")
    (hget : h.deploymentsCacheGet foo.ObjectMeta.Namespace foo.Spec.DeploymentName
      = (some d, none))
    (hc : IsControlledBy d.ObjectMeta foo.ObjectMeta = true)
    (hrep : foo.Spec.Replicas = none ∨ foo.Spec.Replicas = d.Spec.Replicas)
    (hav : foo.Status.AvailableReplicas = d.Status.AvailableReplicas) :
    creates (OnFooChanged h key (some foo)).calls = []
    ∧ updates (OnFooChanged h key (some foo)).calls = []
    ∧ fooWrites (OnFooChanged h key (some foo)).calls = [foo] := by
  have hL := lookup_other h foo (by rw [hget]; rfl)
  rw [hget] at hL
  have hR : OnFooChanged.replicas h foo d = some ([], some d, none) := by
    rcases hrep with hf | hf
    · exact replicas_unspecified h foo d hf
    · cases hr : foo.Spec.Replicas with
      | none => exact replicas_unspecified h foo d hr
      | some r => exact replicas_equal h foo d r hr (by rw [← hf, hr])
  rw [onFoo_status h key foo hname _ d hL hc [] d hR, ← hav]
  simp [creates, updates, fooWrites]

/-- C8, amended, at `fooWeb` with two available replicas recorded and its
owned Deployment `web` with three replicas, two of them available. -/
theorem idempotence_up_to_status_write_witness :
    creates (OnFooChanged (cluster [webOwned 3 2] [] 2) "default/example-foo"
        (some { fooWeb with Status := { AvailableReplicas := 2 } })).calls = []
    ∧ updates (OnFooChanged (cluster [webOwned 3 2] [] 2) "default/example-foo"
        (some { fooWeb with Status := { AvailableReplicas := 2 } })).calls = []
    ∧ fooWrites (OnFooChanged (cluster [webOwned 3 2] [] 2) "default/example-foo"
        (some { fooWeb with Status := { AvailableReplicas := 2 } })).calls
        = [{ fooWeb with Status := { AvailableReplicas := 2 } }] :=
  idempotence_up_to_status_write (cluster [webOwned 3 2] [] 2) "default/example-foo"
    { fooWeb with Status := { AvailableReplicas := 2 } } (webOwned 3 2)
    (by decide) (by rfl) (by rfl) (Or.inr rfl) rfl

/-! ## Drift correction and the status write -/

/-- C9 as stated fails: for `fooWeb` (three replicas) and its owned Deployment
`web` at one replica the Update is issued, and the Foo is written in the same
pass. -/
theorem deferred_status_counterexample :
    ¬ ∀ (h : Handler) (key : String) (foo : Foo) (d : Deployment) (r r' : Int),
      foo.Spec.DeploymentName ≠ "" →
      h.deploymentsCacheGet foo.ObjectMeta.Namespace foo.Spec.DeploymentName = (some d, none) →
      IsControlledBy d.ObjectMeta foo.ObjectMeta = true →
      foo.Spec.Replicas = some r → d.Spec.Replicas = some r' → r ≠ r' →
      fooWrites (OnFooChanged h key (some foo)).calls = [] := by
  intro hall
  have hw := hall (cluster [webOwned 1 1] [] 1) "default/example-foo" fooWeb (webOwned 1 1) 3 1
    (by decide) (by rfl) (by rfl) rfl rfl (by decide)
  exact absurd hw (by decide)

/-- C9, amended: in a pass in which the Deployment update for a replica
mismatch is issued, when the Update returns a Deployment and a nil error the
Foo is written in that same pass, right after the Update, with the
`AvailableReplicas` of the Deployment that Update returned; when the Update
returns an error no Foo write is issued and that error is returned. -/
theorem status_write_follows_update (h : Handler) (key : String) (foo : Foo) (d : Deployment)
    (r r' : Int)
    (hname : foo.Spec.DeploymentName ≠ "")
    (hget : h.deploymentsCacheGet foo.ObjectMeta.Namespace foo.Spec.DeploymentName
      = (some d, none))
    (hc : IsControlledBy d.ObjectMeta foo.ObjectMeta = true)
    (hf : foo.Spec.Replicas = some r) (hd : d.Spec.Replicas = some r') (hne : r ≠ r') :
    (∀ d2, h.deploymentsUpdate (newDeployment h.SchemeGroupVersion foo) = (some d2, none) →
        storeCalls (OnFooChanged h key (some foo)).calls =
          [.deploymentsCacheGet foo.ObjectMeta.Namespace foo.Spec.DeploymentName (some d, none),
           .deploymentsUpdate (newDeployment h.SchemeGroupVersion foo) (some d2, none),
           .foosUpdate
              { ObjectMeta := foo.ObjectMeta, Spec := foo.Spec
                Status := { AvailableReplicas := d2.Status.AvailableReplicas } }
              (h.foosUpdate
                { ObjectMeta := foo.ObjectMeta, Spec := foo.Spec
                  Status := { AvailableReplicas := d2.Status.AvailableReplicas } })])
    ∧ (∀ x err, h.deploymentsUpdate (newDeployment h.SchemeGroupVersion foo) = (x, some err) →
        updates (OnFooChanged h key (some foo)).calls = [newDeployment h.SchemeGroupVersion foo]
        ∧ fooWrites (OnFooChanged h key (some foo)).calls = []
        ∧ (OnFooChanged h key (some foo)).outcome = .returned (none, some err)) := by
  have hL := lookup_other h foo (by rw [hget]; rfl)
  rw [hget] at hL
  have hR := replicas_differ h foo d r r' hf hd hne
  refine ⟨?_, ?_⟩
  · intro d2 hu
    rw [hu] at hR
    rw [onFoo_status h key foo hname _ d hL hc _ d2 hR]
    simp [storeCalls, Call.isStore]
  · intro x err hu
    rw [hu] at hR
    rw [onFoo_update_err h key foo hname _ d hL hc _ x err hR]
    simp [updates, fooWrites]

/-- C9, amended, at `fooWeb` (three replicas) with its owned Deployment `web`
at one replica: the lookup, the Update and the Foo write, in this order. -/
theorem status_write_follows_update_witness :
    storeCalls (OnFooChanged (cluster [webOwned 1 1] [] 1) "default/example-foo"
        (some fooWeb)).calls =
      [.deploymentsCacheGet "default" "web" (some (webOwned 1 1), none),
       .deploymentsUpdate (newDeployment (cluster [webOwned 1 1] [] 1).SchemeGroupVersion fooWeb)
          (some (webOwned 3 1), none),
       .foosUpdate { fooWeb with Status := { AvailableReplicas := 1 } }
          (some { fooWeb with Status := { AvailableReplicas := 1 } }, none)] :=
  (status_write_follows_update (cluster [webOwned 1 1] [] 1) "default/example-foo" fooWeb
    (webOwned 1 1) 3 1 (by decide) (by rfl) (by rfl) rfl rfl (by decide)).1 (webOwned 3 1) rfl

/-! ## Deletion of a Deployment -/

/-- C10 as stated fails: the delete notification for the Deployment `web`
owned by `fooWeb`, which resolves in the Foo cache, reaches the handler as a
nil Deployment, and the key of `fooWeb` is not enqueued. -/
theorem deletion_propagation_counterexample :
    ¬ ∀ (h : Handler) (key : String) (d : Deployment) (ref : OwnerReference) (foo : Foo),
      GetControllerOf d.ObjectMeta = some ref → ref.Kind = "Foo" →
      h.foosCacheGet d.ObjectMeta.Namespace ref.Name = (some foo, none) →
      (foo.ObjectMeta.Namespace, foo.ObjectMeta.Name)
        ∈ enqueues (OnDeploymentChanged h key none).calls := by
  intro hall
  have hw := hall (cluster [] [fooWeb] 1) "default/web" (webOwned 1 1) _ fooWeb rfl rfl rfl
  exact absurd hw (by decide)

/-- C10 (deletion propagation), amended: a delete notification reaches
`OnDeploymentChanged` as a nil Deployment, for which the handler makes no call,
enqueues nothing and returns nil, nil; the key of the owner is enqueued for a
notification that carries the Deployment (add or update), when the controller
owner reference has kind Foo and resolves in the Foo cache. -/
theorem deletion_enqueues_nothing (h : Handler) (key : String) (d : Deployment)
    (ref : OwnerReference) (foo : Foo)
    (hr : GetControllerOf d.ObjectMeta = some ref) (hk : ref.Kind = "Foo")
    (hg : h.foosCacheGet d.ObjectMeta.Namespace ref.Name = (some foo, none)) :
    (OnDeploymentChanged h key none).calls = []
    ∧ (OnDeploymentChanged h key none).outcome = .returned (none, none)
    ∧ enqueues (OnDeploymentChanged h key (some d)).calls
        = [(foo.ObjectMeta.Namespace, foo.ObjectMeta.Name)] := by
  refine ⟨rfl, rfl, ?_⟩
  simp [OnDeploymentChanged, hr, hk, hg, enqueues]

/-- C10, amended, at the Deployment `web` owned by `fooWeb`. -/
theorem deletion_enqueues_nothing_witness :
    (OnDeploymentChanged (cluster [] [fooWeb] 1) "default/web" none).calls = []
    ∧ (OnDeploymentChanged (cluster [] [fooWeb] 1) "default/web" none).outcome
        = .returned (none, none)
    ∧ enqueues (OnDeploymentChanged (cluster [] [fooWeb] 1) "default/web"
        (some (webOwned 1 1))).calls = [("default", "example-foo")] :=
  deletion_enqueues_nothing (cluster [] [fooWeb] 1) "default/web" (webOwned 1 1) _ fooWeb
    rfl rfl rfl

end WranglerSample
